import Mathlib

/-!
Verification of the bxn HTTP request-processing core.

The development shallowly embeds the pieces of the `@buildxn/http` package
that carry the system's invariants:

* `composeBeforeHooks` (src/packages/http/src/route-builder/hooks.ts) and
  `compileChain` (src/packages/http/src/compile-chain.ts): hook/middleware
  composition in continuation-passing style.  The source's mutable-index
  dispatch is rendered as structural recursion over the stage list, which
  agrees with it for every stage that calls `next` at most once.
* the validation gate of `handle` (src/packages/http/src/handle.ts) and
  `createValidationMiddleware` (src/packages/http/src/middleware/validation.ts),
  both parameterised by the AJV options each passes.
* the dispatcher `createServer` request handler and the `sse` event-stream
  lifecycle (src/packages/http/src/http-result.ts).

JSON values are modelled with integer numerics; strings, objects and arrays
are as in the source.  Results use the plain-object `HttpResult` shape of
src/packages/http/src/types.ts (`statusCode`, `headers`, `body`).
-/

namespace Bxn

/-- JSON-like runtime values flowing through the validators and results.
Numbers are modelled as integers, which covers every constraint the
schemas of this package use. -/
inductive Json where
  | null : Json
  | bool (b : Bool) : Json
  | num (n : Int) : Json
  | str (s : String) : Json
  | arr (items : List Json) : Json
  | obj (fields : List (String × Json)) : Json

/-- Association-list lookup over JSON object fields. -/
def jlookup (k : String) : List (String × Json) → Option Json
  | [] => none
  | (k', v) :: rest => if k' = k then some v else jlookup k rest

/-! ### Hook composition (route-builder/hooks.ts, compile-chain.ts) -/

/-- A pre-handler stage: receives the current context and a `next`
continuation bound to the remaining stages, and returns a result either
by calling `next` or directly (short-circuit). -/
abbrev BeforeHook (Ctx Res : Type) := Ctx → (Ctx → Res) → Res

/-- From `composeBeforeHooks` in src/packages/http/src/route-builder/hooks.ts:
zero hooks pass the context straight to `next`; one hook is returned as-is;
otherwise the hooks run sequentially, the mutable-index `dispatch` of the
source becoming structural recursion over the remaining stages. -/
def composeBeforeHooks {Ctx Res : Type} : List (BeforeHook Ctx Res) → BeforeHook Ctx Res
  | [] => fun ctx next => next ctx
  | [h] => h
  | h :: rest => fun ctx finalNext => h ctx (fun c => composeBeforeHooks rest c finalNext)

/-- From `compileChain` in src/packages/http/src/compile-chain.ts: the chain
is a list of middlewares followed by a terminal handler; each middleware
receives a continuation running the remainder of the chain. -/
def compileChain {Ctx Res : Type} : List (BeforeHook Ctx Res) → (Ctx → Res) → Ctx → Res
  | [], handler, ctx => handler ctx
  | m :: rest, handler, ctx => m ctx (fun c => compileChain rest handler c)

/-- A hook that always continues, enriching the context with `f`. -/
def continueHook {Ctx Res : Type} (f : Ctx → Ctx) : BeforeHook Ctx Res :=
  fun ctx next => next (f ctx)

/-- A hook that returns a result directly, never calling `next`. -/
def shortCircuitHook {Ctx Res : Type} (f : Ctx → Res) : BeforeHook Ctx Res :=
  fun ctx _ => f ctx

/-- A hook that records its tag at the end of a log context and continues. -/
def tagHook {A Res : Type} (a : A) : BeforeHook (List A) Res :=
  fun ctx next => next (ctx ++ [a])

/-- C9: composing an empty hook list yields exactly the pass-through to
`finalNext` on the unchanged context, and composing a one-element list
yields that hook itself. -/
theorem composeBeforeHooks_empty_singleton :
    ∀ (Ctx Res : Type) (ctx : Ctx) (finalNext : Ctx → Res) (h : BeforeHook Ctx Res),
      composeBeforeHooks [] ctx finalNext = finalNext ctx ∧
      composeBeforeHooks [h] = h := by
  intro Ctx Res ctx finalNext h
  exact ⟨rfl, rfl⟩

/-- C3: in a chain A, B, C where B returns a result without calling `next`,
the composed chain returns exactly B's result and the outcome does not
depend on C or on the terminal handler (so neither runs); and when every
stage calls `next`, the stages execute in declaration order, the terminal
stage last.  Both facts are proved for `composeBeforeHooks` and for
`compileChain`. -/
theorem hook_chain_short_circuit_and_order :
    ∀ (Ctx Res A : Type) (enrich : Ctx → Ctx) (fB : Ctx → Res)
      (hookC : BeforeHook Ctx Res) (finalNext : Ctx → Res) (ctx : Ctx)
      (a b c : A) (log : List A) (handler : List A → Res),
      composeBeforeHooks [continueHook enrich, shortCircuitHook fB, hookC] ctx finalNext
        = fB (enrich ctx) ∧
      compileChain [continueHook enrich, shortCircuitHook fB, hookC] finalNext ctx
        = fB (enrich ctx) ∧
      composeBeforeHooks [tagHook a, tagHook b, tagHook c] log handler
        = handler (log ++ [a, b, c]) ∧
      compileChain [tagHook a, tagHook b, tagHook c] handler log
        = handler (log ++ [a, b, c]) := by
  intro Ctx Res A enrich fB hookC finalNext ctx a b c log handler
  refine ⟨rfl, rfl, ?_, ?_⟩ <;>
    simp [composeBeforeHooks, compileChain, tagHook, List.append_assoc]

/-! ### Schema validator (modelled from the spec) -/

/-- Association-list lookup keyed by strings, mirroring JS object access. -/
def alookup {α : Type} (k : String) : List (String × α) → Option α
  | [] => none
  | (k', v) :: rest => if k' = k then some v else alookup k rest

/-- Digit-by-digit accumulator for parsing a decimal numeral. -/
def parseNatGo : List Char → Nat → Option Nat
  | [], acc => some acc
  | c :: t, acc =>
      if c.isDigit then parseNatGo t (acc * 10 + (c.toNat - 48)) else none

/-- Parse a non-empty list of decimal digits. -/
def parseNatChars : List Char → Option Nat
  | [] => none
  | cs => parseNatGo cs 0

/-- Parse an optionally "-"-signed decimal integer (the numeric strings AJV
coerces). -/
def parseIntChars : List Char → Option Int
  | [] => none
  | '-' :: rest => (parseNatChars rest).map (fun n => -(n : Int))
  | cs => (parseNatChars cs).map (fun n => (n : Int))

/-- JS `array.join(sep)`. -/
def joinWith (sep : String) : List String → String
  | [] => ""
  | [x] => x
  | x :: t => x ++ sep ++ joinWith sep t

/-- JS `string.split(sep)` for a one-character separator. -/
def splitOnChar (sep : Char) : List Char → List (List Char)
  | [] => [[]]
  | c :: t =>
    match splitOnChar sep t with
    | [] => if c = sep then [[], []] else [[c]]
    | h :: rest => if c = sep then [] :: h :: rest else (c :: h) :: rest

/-- JS `string.trim()`: strip leading and trailing whitespace. -/
def trimChars (l : List Char) : List Char :=
  ((l.dropWhile Char.isWhitespace).reverse.dropWhile Char.isWhitespace).reverse

/-- JS `string.toLocaleLowerCase()` over the code points. -/
def lowerChars (l : List Char) : List Char := l.map Char.toLower

/-- Scalar types appearing in the declared schemas. -/
inductive ScalarType where
  | tString : ScalarType
  | tInteger : ScalarType
  | tNumber : ScalarType
  | tBoolean : ScalarType
deriving DecidableEq

/-- One declared property: its scalar type, an optional `minimum` bound and
an optional declared default value. -/
structure PropSchema where
  type : ScalarType
  minimum : Option Int
  default : Option Json

/-- An object schema: declared properties, required-field list, and the
`additionalProperties` keyword (`false` forbids undeclared fields). -/
structure ObjectSchema where
  properties : List (String × PropSchema)
  required : List String
  additionalProperties : Bool

/-- The AJV options the two gates pass when constructing their validator. -/
structure AjvOptions where
  allErrors : Bool
  coerceTypes : Bool
  useDefaults : Bool
  removeAdditional : Bool

/-- Options of the shared AJV instance in src/packages/http/src/handle.ts
(`allErrors, coerceTypes, useDefaults, removeAdditional` all true). -/
def handleAjvOptions : AjvOptions := ⟨true, true, true, true⟩

/-- Options of the AJV instance in
src/packages/http/src/middleware/validation.ts: only `allErrors` and
`coerceTypes`; `useDefaults` and `removeAdditional` are not enabled. -/
def middlewareAjvOptions : AjvOptions := ⟨true, true, false, false⟩

/-- A raw validation error as AJV reports it. -/
structure AjvError where
  instancePath : String
  message : String
  keyword : String
deriving DecidableEq

/-- Modelled from the spec: the validator itself is the external AJV library
(not part of this repository's sources); coercion follows §4.2: scalar
string inputs are converted to the declared type before constraint checks
(numeric strings to numbers, "true"/"false" to booleans).  `none` means a
type violation. -/
def coerceScalar (coerce : Bool) (t : ScalarType) (v : Json) : Option Json :=
  match t, v with
  | .tString, .str s => some (.str s)
  | .tInteger, .num n => some (.num n)
  | .tNumber, .num n => some (.num n)
  | .tBoolean, .bool b => some (.bool b)
  | .tInteger, .str s => if coerce then (parseIntChars s.data).map Json.num else none
  | .tNumber, .str s => if coerce then (parseIntChars s.data).map Json.num else none
  | .tBoolean, .str s =>
      if coerce then
        if s = "true" then some (.bool true)
        else if s = "false" then some (.bool false)
        else none
      else none
  | _, _ => none

/-- Printable name of a scalar type, used in `type` error messages. -/
def scalarTypeName : ScalarType → String
  | .tString => "string"
  | .tInteger => "integer"
  | .tNumber => "number"
  | .tBoolean => "boolean"

/-- Validate one present property: coerce first, then check the `minimum`
bound against the coerced value; returns the corrected value and the
violations found. -/
def propValidate (opts : AjvOptions) (name : String) (ps : PropSchema) (v : Json) :
    Json × List AjvError :=
  match coerceScalar opts.coerceTypes ps.type v with
  | none => (v, [⟨"/" ++ name, "must be " ++ scalarTypeName ps.type, "type"⟩])
  | some v' =>
    match ps.minimum, v' with
    | some m, .num n =>
        if n < m then (v', [⟨"/" ++ name, "must be >= " ++ toString m, "minimum"⟩])
        else (v', [])
    | _, _ => (v', [])

/-- Violations of the declared properties that are present in the value. -/
def propertiesErrors (opts : AjvOptions) (fields : List (String × Json)) :
    List (String × PropSchema) → List AjvError
  | [] => []
  | (n, ps) :: rest =>
    (match alookup n fields with
     | some v => (propValidate opts n ps v).2
     | none => []) ++ propertiesErrors opts fields rest

/-- One `required` violation per required name missing from the value. -/
def requiredErrors (fields : List (String × Json)) : List String → List AjvError
  | [] => []
  | n :: rest =>
    (match alookup n fields with
     | some _ => []
     | none => [⟨"", "must have required property '" ++ n ++ "'", "required"⟩]) ++
    requiredErrors fields rest

/-- Whether a field name is declared among the schema's properties. -/
def isDeclared (props : List (String × PropSchema)) (k : String) : Bool :=
  props.any (fun p => p.1 == k)

/-- Violations for undeclared fields: none when they are allowed, none when
`removeAdditional` strips them silently, one error each otherwise. -/
def additionalErrors (opts : AjvOptions) (s : ObjectSchema)
    (fields : List (String × Json)) : List AjvError :=
  if s.additionalProperties then []
  else if opts.removeAdditional then []
  else fields.filterMap (fun kv =>
    if isDeclared s.properties kv.1 then none
    else some ⟨"", "must NOT have additional properties", "additionalProperties"⟩)

/-- Modelled from the spec (§4.2): declared default values are applied to
missing optional fields when `useDefaults` is enabled; required fields are
never defaulted. -/
def appliedDefaults (opts : AjvOptions) (s : ObjectSchema)
    (fields : List (String × Json)) : List (String × Json) :=
  if opts.useDefaults then
    s.properties.filterMap (fun np =>
      match alookup np.1 fields, np.2.default with
      | none, some d => if np.1 ∈ s.required then none else some (np.1, d)
      | _, _ => none)
  else []

/-- The corrected object value: declared fields coerced in place, undeclared
fields kept, dropped, or kept-with-error according to the
additional-properties policy, and defaults appended for missing optional
fields. -/
def correctedFields (opts : AjvOptions) (s : ObjectSchema)
    (fields : List (String × Json)) : List (String × Json) :=
  fields.filterMap (fun kv =>
    match alookup kv.1 s.properties with
    | some ps => some (kv.1, (propValidate opts kv.1 ps kv.2).1)
    | none =>
      if s.additionalProperties then some kv
      else if opts.removeAdditional then none
      else some kv) ++
  appliedDefaults opts s fields

/-- Modelled from the spec: `compile(schema) → validator; validator(value)`
returning the corrected value and the collected violations (§4.2).  The
deciding implementation is the AJV dependency, which is not part of this
repository's sources; its documented behaviour under the options each gate
passes is modelled here.  With `allErrors` the violations are all
collected; otherwise validation stops at the first. -/
def ajvValidate (opts : AjvOptions) (s : ObjectSchema) (v : Json) :
    Json × List AjvError :=
  match v with
  | .obj fields =>
      let errs := propertiesErrors opts fields s.properties ++
        requiredErrors fields s.required ++ additionalErrors opts s fields
      (Json.obj (correctedFields opts s fields),
       if opts.allErrors then errs else errs.take 1)
  | _ => (v, [⟨"", "must be object", "type"⟩])

/-- AJV applied to JS `undefined` (a request part that is absent and not
defaulted by the caller): a root-level type violation. -/
def ajvValidateUndefined : List AjvError := [⟨"", "must be object", "type"⟩]

/-! ### The handle() validation gate (handle.ts) -/

/-- The four request sources a schema can be declared for. -/
inductive Field where
  | params : Field
  | query : Field
  | body : Field
  | headers : Field
deriving DecidableEq

/-- Wire name of a source, as it appears in the 400 body. -/
def fieldName : Field → String
  | .params => "params"
  | .query => "query"
  | .body => "body"
  | .headers => "headers"

/-- A formatted error as produced by `formatErrors` in handle.ts. -/
structure FmtError where
  path : String
  message : String
  keyword : String
deriving DecidableEq

/-- From `formatErrors` in src/packages/http/src/handle.ts: the path falls
back to "/" when AJV's instancePath is empty, the message falls back to
"Validation failed", and the keyword is carried through. -/
def formatErrors (errors : List AjvError) : List FmtError :=
  errors.map fun e =>
    ⟨if e.instancePath = "" then "/" else e.instancePath,
     if e.message = "" then "Validation failed" else e.message,
     e.keyword⟩

/-- Errors of one source, as one entry of the 400 body's `details`. -/
structure ValidationErrorDetail where
  field : Field
  errors : List FmtError
deriving DecidableEq

/-- A body schema: a single schema, or one schema per content type. -/
inductive BodyDecl where
  | single (s : ObjectSchema) : BodyDecl
  | byContentType (schemas : List (String × ObjectSchema)) : BodyDecl

/-- The `handle()` configuration: up to four declared schemas. -/
structure HandleConfig where
  params : Option ObjectSchema
  query : Option ObjectSchema
  body : Option BodyDecl
  headers : Option ObjectSchema

/-- An incoming request's structured parts; `none` models a part that is
absent (JS `undefined`). -/
structure EnhancedRequest where
  params : Option Json
  query : Option Json
  body : Option Json
  headers : Option Json

/-- JS `x ?? {}`: null and undefined both default to the empty object. -/
def orEmptyObj : Option Json → Json
  | none => Json.obj []
  | some Json.null => Json.obj []
  | some v => v

/-- Read a single-string header value from the request. -/
def getHeaderString (req : EnhancedRequest) (name : String) : Option String :=
  match req.headers with
  | some (Json.obj fs) =>
      match alookup name fs with
      | some (Json.str s) => some s
      | _ => none
  | _ => none

/-- From handle.ts line 315: drop everything after the first ";", trim,
lowercase. -/
def normalizeContentType (raw : String) : String :=
  ⟨lowerChars (trimChars ((splitOnChar ';' raw.data).headD []))⟩

/-- Validate one source against its schema with handle.ts's AJV options;
`some` exactly when the validator reported errors (handle.ts 285-365). -/
def sourceDetail (f : Field) (s : ObjectSchema) (v : Json) :
    Option ValidationErrorDetail :=
  if ((ajvValidate handleAjvOptions s v).2).isEmpty then none
  else some ⟨f, formatErrors (ajvValidate handleAjvOptions s v).2⟩

/-- The params entry pushed by handle.ts (validating `req.params ?? {}`). -/
def paramsDetail (config : HandleConfig) (req : EnhancedRequest) :
    Option ValidationErrorDetail :=
  config.params.bind fun s => sourceDetail .params s (orEmptyObj req.params)

/-- The query entry pushed by handle.ts (validating `req.query ?? {}`). -/
def queryDetail (config : HandleConfig) (req : EnhancedRequest) :
    Option ValidationErrorDetail :=
  config.query.bind fun s => sourceDetail .query s (orEmptyObj req.query)

/-- The headers entry pushed by handle.ts (validating `req.headers ?? {}`). -/
def headersDetail (config : HandleConfig) (req : EnhancedRequest) :
    Option ValidationErrorDetail :=
  config.headers.bind fun s => sourceDetail .headers s (orEmptyObj req.headers)

/-- The supported content types, joined as in handle.ts's messages. -/
def supportedJoin (schemas : List (String × ObjectSchema)) : String :=
  joinWith ", " (schemas.map (·.1))

/-- The single body error pushed when no usable Content-Type header is
present (handle.ts 319-330). -/
def contentTypeRequiredDetail (schemas : List (String × ObjectSchema)) :
    ValidationErrorDetail :=
  ⟨.body,
   [⟨"/", "Content-Type header is required. Supported: " ++ supportedJoin schemas,
     "contentType"⟩]⟩

/-- The single body error pushed when the normalized Content-Type matches no
declared key (handle.ts 342-353). -/
def unsupportedContentTypeDetail (ct : String)
    (schemas : List (String × ObjectSchema)) : ValidationErrorDetail :=
  ⟨.body,
   [⟨"/", "Unsupported Content-Type: " ++ ct ++ ". Supported: " ++ supportedJoin schemas,
     "contentType"⟩]⟩

/-- The body entry pushed by handle.ts (305-355): a single schema validates
`req.body ?? {}`; a content-type map first normalizes the header, errors
when it is missing or unmatched, and otherwise validates with the matching
sub-schema. -/
def bodyDetail (config : HandleConfig) (req : EnhancedRequest) :
    Option ValidationErrorDetail :=
  match config.body with
  | none => none
  | some (.single s) => sourceDetail .body s (orEmptyObj req.body)
  | some (.byContentType schemas) =>
    match (getHeaderString req "content-type").map normalizeContentType with
    | none => some (contentTypeRequiredDetail schemas)
    | some ct =>
      if ct = "" then some (contentTypeRequiredDetail schemas)
      else
        match alookup ct schemas with
        | some s => sourceDetail .body s (orEmptyObj req.body)
        | none => some (unsupportedContentTypeDetail ct schemas)

/-- The validation-error list handle.ts accumulates, in its push order:
params, query, body, headers. -/
def handleValidate (config : HandleConfig) (req : EnhancedRequest) :
    List ValidationErrorDetail :=
  (paramsDetail config req).toList ++ (queryDetail config req).toList ++
  (bodyDetail config req).toList ++ (headersDetail config req).toList

/-- A response in the plain-object shape of src/packages/http/src/types.ts. -/
structure HttpResult where
  statusCode : Nat
  headers : List (String × String)
  body : Json

/-- From `createJsonResult` in http-result.ts: the given status and data
with a Content-Type application/json header. -/
def createJsonResult (data : Json) (statusCode : Nat)
    (headers : List (String × String)) : HttpResult :=
  ⟨statusCode, headers ++ [("Content-Type", "application/json")], data⟩

/-- From `badRequest` in http-result.ts applied to a JSON body. -/
def badRequest (data : Json) : HttpResult := createJsonResult data 400 []

/-- JSON encoding of one formatted error. -/
def encodeFmtError (e : FmtError) : Json :=
  Json.obj [("path", .str e.path), ("message", .str e.message), ("keyword", .str e.keyword)]

/-- JSON encoding of one source's detail entry. -/
def encodeDetail (d : ValidationErrorDetail) : Json :=
  Json.obj [("field", .str (fieldName d.field)),
            ("errors", .arr (d.errors.map encodeFmtError))]

/-- The 400 body handle.ts builds: error "Validation Failed" plus the
details grouped by source. -/
def validationFailedBody (details : List ValidationErrorDetail) : Json :=
  Json.obj [("error", .str "Validation Failed"),
            ("details", .arr (details.map encodeDetail))]

/-- From `handle` in src/packages/http/src/handle.ts: the returned request
handler validates all declared sources, answers 400 with the collected
details when any failed, and calls the inner handler otherwise. -/
def handle (config : HandleConfig) (handler : EnhancedRequest → HttpResult) :
    EnhancedRequest → HttpResult := fun req =>
  let details := handleValidate config req
  if details.isEmpty then handler req
  else badRequest (validationFailedBody details)

/-! ### createValidationMiddleware (middleware/validation.ts) -/

/-- The middleware's schema set (params, query, headers, body). -/
structure MwSchema where
  params : Option ObjectSchema
  query : Option ObjectSchema
  headers : Option ObjectSchema
  body : Option ObjectSchema

/-- The middleware's request context; only the body may be absent. -/
structure MwContext where
  params : Json
  query : Json
  headers : Json
  body : Option Json

/-- One flat error of the middleware's 400 body: a source-prefixed field
locator and a message (no keyword). -/
structure MwError where
  field : String
  message : String
deriving DecidableEq

/-- From validation.ts 36-70: each AJV error becomes source ++ instancePath
with the raw message. -/
def mwFormat (source : String) (errors : List AjvError) : List MwError :=
  errors.map fun e => ⟨source ++ e.instancePath, e.message⟩

/-- Errors of one declared non-body source in the middleware. -/
def mwSourceErrors (source : String) (s? : Option ObjectSchema) (v : Json) :
    List MwError :=
  match s? with
  | none => []
  | some s => mwFormat source (ajvValidate middlewareAjvOptions s v).2

/-- Errors of the declared body schema; the body may be absent entirely. -/
def mwBodyErrors (s? : Option ObjectSchema) (v : Option Json) : List MwError :=
  match s? with
  | none => []
  | some s =>
    match v with
    | some j => mwFormat "body" (ajvValidate middlewareAjvOptions s j).2
    | none => mwFormat "body" ajvValidateUndefined

/-- The middleware's flat error list, in its push order: params, query,
headers, body (validation.ts 34-70). -/
def mwValidate (schema : MwSchema) (ctx : MwContext) : List MwError :=
  mwSourceErrors "params" schema.params ctx.params ++
  mwSourceErrors "query" schema.query ctx.query ++
  mwSourceErrors "headers" schema.headers ctx.headers ++
  mwBodyErrors schema.body ctx.body

/-- JSON encoding of one middleware error. -/
def encodeMwError (e : MwError) : Json :=
  Json.obj [("field", .str e.field), ("message", .str e.message)]

/-- From `createValidationMiddleware` in
src/packages/http/src/middleware/validation.ts: on any error, a 400 whose
body is an `errors` array with empty headers; otherwise pass the context
to `next`. -/
def createValidationMiddleware (schema : MwSchema) (ctx : MwContext)
    (next : MwContext → HttpResult) : HttpResult :=
  let errors := mwValidate schema ctx
  if errors.isEmpty then next ctx
  else ⟨400, [], Json.obj [("errors", Json.arr (errors.map encodeMwError))]⟩

/-! ### Path matcher and dispatcher (createServer, src/unnamed/part_007) -/

/-- Path segments: split on "/" and drop empty components. -/
def splitPath (p : String) : List String :=
  ((splitOnChar '/' p.data).map (fun l => (⟨l⟩ : String))).filter (fun s => s != "")

/-- Modelled from the spec (§4.1): segment-wise matching — equal segment
count, literal segments match exactly, ":"-prefixed dynamic segments bind
the path component to their declared name regardless of content. -/
def matchSegments : List String → List String → Option (List (String × String))
  | [], [] => some []
  | ps :: pt, cs :: ct =>
      match ps.data with
      | ':' :: nameChars =>
          (matchSegments pt ct).map (fun bs => ((⟨nameChars⟩ : String), cs) :: bs)
      | _ => if ps = cs then matchSegments pt ct else none
  | _, _ => none

/-- Modelled from the spec: `find-matching-route.ts` is not under src/ (only
its caller `createServer` is); §4.1 specifies returning the first pattern
in registration order that matches, with its dynamic-segment bindings. -/
def findMatchingRoute (patterns : List String) (pathname : String) :
    Option (String × List (String × String)) :=
  match patterns with
  | [] => none
  | p :: rest =>
    match matchSegments (splitPath p) (splitPath pathname) with
    | some params => some (p, params)
    | none => findMatchingRoute rest pathname

/-- A route handler may succeed with a result or raise an uncaught failure,
modelled as `Except` with the failure's description. -/
abbrev RouteHandler := List (String × String) → Except String HttpResult

/-- The route table: pattern, then method, then handler. -/
abbrev Routes := List (String × List (String × RouteHandler))

/-- From `createStatusResult` in http-result.ts: status-only results carry
no body. -/
def createStatusResult (statusCode : Nat) (headers : List (String × String)) :
    HttpResult :=
  ⟨statusCode, headers, Json.null⟩

/-- From `notFound()` with no data. -/
def notFoundResult : HttpResult := createStatusResult 404 []

/-- From `methodNotAllowed(undefined, headers)`. -/
def methodNotAllowedResult (headers : List (String × String)) : HttpResult :=
  createStatusResult 405 headers

/-- From `internalServerError()` with no data: a generic 500 carrying
nothing of the underlying failure. -/
def internalServerErrorResult : HttpResult := createStatusResult 500 []

/-- From the request handler inside `createServer`: resolve the route (404
when nothing matches), look up the method (405 with an Allow header
joining the registered methods), run the handler, and convert any uncaught
failure into the generic 500. -/
def requestHandler (routes : Routes) (pathname method : String) : HttpResult :=
  match findMatchingRoute (routes.map (·.1)) pathname with
  | none => notFoundResult
  | some (pattern, params) =>
    let methodMap := (alookup pattern routes).getD []
    match alookup method methodMap with
    | none =>
        methodNotAllowedResult
          [("Allow", joinWith ", " (methodMap.map (·.1)))]
    | some handler =>
      match handler params with
      | .ok result => result
      | .error _ => internalServerErrorResult

/-! ### Event-stream lifecycle (sse in http-result.ts) -/

/-- Observable events over an event-stream's lifetime: a producer write, the
producer's `close()`, and a consumer cancellation. -/
inductive SSEEvent where
  | write : SSEEvent
  | close : SSEEvent
  | cancel : SSEEvent
deriving DecidableEq

/-- The stream's lifecycle state: whether the controller was closed, whether
the consumer cancelled, and how many times the cleanup callback ran. -/
structure SSEState where
  closed : Bool
  cancelled : Bool
  cleanupRuns : Nat
deriving DecidableEq

/-- From `sse` in src/packages/http/src/http-result.ts (596-636): `close()`
runs `cleanup?.()` unconditionally before closing the controller; the
underlying `cancel()` runs `cleanup?.()` and is only reached by the
consumer while the stream is neither closed nor already cancelled; writes
never touch the cleanup.  The callback reference is never cleared after
running. -/
def sseStep (st : SSEState) : SSEEvent → SSEState
  | .write => st
  | .close => ⟨true, st.cancelled, st.cleanupRuns + 1⟩
  | .cancel =>
      if st.closed || st.cancelled then st
      else ⟨st.closed, true, st.cleanupRuns + 1⟩

/-- Run a lifecycle trace from a starting state. -/
def sseRun (st : SSEState) : List SSEEvent → SSEState
  | [] => st
  | e :: t => sseRun (sseStep st e) t

/-- The stream's state when the producer's handler is installed. -/
def sseInit : SSEState := ⟨false, false, 0⟩

/-- Number of producer `close()` calls in a trace. -/
def countClose : List SSEEvent → Nat
  | [] => 0
  | .close :: t => countClose t + 1
  | _ :: t => countClose t

/-- Whether the first non-write event of the trace is a consumer
cancellation (the only cancellation that reaches the underlying source). -/
def firstEffectiveCancel : List SSEEvent → Bool
  | [] => false
  | .write :: t => firstEffectiveCancel t
  | .close :: _ => false
  | .cancel :: _ => true

/-! ### Supporting lemmas -/

/-- A detail produced by `sourceDetail` carries the source it was built
for. -/
theorem sourceDetail_field (f : Field) (s : ObjectSchema) (v : Json)
    (d : ValidationErrorDetail) (h : sourceDetail f s v = some d) :
    d.field = f := by
  unfold sourceDetail at h
  split at h
  · exact absurd h (by simp)
  · rw [Option.some_inj] at h
    rw [← h]

/-- Params entries always carry source params. -/
theorem paramsDetail_field (config : HandleConfig) (req : EnhancedRequest)
    (d : ValidationErrorDetail) (h : paramsDetail config req = some d) :
    d.field = .params := by
  unfold paramsDetail at h
  cases hs : config.params with
  | none => rw [hs] at h; exact absurd h (by simp)
  | some s => rw [hs] at h; exact sourceDetail_field _ _ _ _ h

/-- Query entries always carry source query. -/
theorem queryDetail_field (config : HandleConfig) (req : EnhancedRequest)
    (d : ValidationErrorDetail) (h : queryDetail config req = some d) :
    d.field = .query := by
  unfold queryDetail at h
  cases hs : config.query with
  | none => rw [hs] at h; exact absurd h (by simp)
  | some s => rw [hs] at h; exact sourceDetail_field _ _ _ _ h

/-- Headers entries always carry source headers. -/
theorem headersDetail_field (config : HandleConfig) (req : EnhancedRequest)
    (d : ValidationErrorDetail) (h : headersDetail config req = some d) :
    d.field = .headers := by
  unfold headersDetail at h
  cases hs : config.headers with
  | none => rw [hs] at h; exact absurd h (by simp)
  | some s => rw [hs] at h; exact sourceDetail_field _ _ _ _ h

/-- Body entries always carry source body, in all three body branches. -/
theorem bodyDetail_field (config : HandleConfig) (req : EnhancedRequest)
    (d : ValidationErrorDetail) (h : bodyDetail config req = some d) :
    d.field = .body := by
  unfold bodyDetail at h
  cases hs : config.body with
  | none => rw [hs] at h; exact absurd h (by simp)
  | some b =>
    rw [hs] at h
    cases b with
    | single s => exact sourceDetail_field _ _ _ _ h
    | byContentType schemas =>
      rcases hd : (getHeaderString req "content-type").map normalizeContentType with _ | ct
      · rw [hd] at h
        rw [Option.some_inj] at h
        rw [← h]; rfl
      · rw [hd] at h
        dsimp only at h
        by_cases hc : ct = ""
        · rw [if_pos hc] at h
          rw [Option.some_inj] at h
          rw [← h]; rfl
        · rw [if_neg hc] at h
          cases hl : alookup ct schemas with
          | some s => rw [hl] at h; exact sourceDetail_field _ _ _ _ h
          | none =>
            rw [hl] at h
            rw [Option.some_inj] at h
            rw [← h]; rfl

/-- A collected error list is nonempty exactly when handle answers 400. -/
theorem handle_status_of_ne_nil (config : HandleConfig)
    (handler : EnhancedRequest → HttpResult) (req : EnhancedRequest)
    (h : handleValidate config req ≠ []) :
    (handle config handler req).statusCode = 400 := by
  unfold handle
  cases hd : handleValidate config req with
  | nil => exact absurd hd h
  | cons d ds => simp [badRequest, createJsonResult]

/-- The single-source detail options embed into the collected list. -/
theorem mem_handleValidate (config : HandleConfig) (req : EnhancedRequest)
    (d : ValidationErrorDetail) :
    (paramsDetail config req = some d ∨ queryDetail config req = some d ∨
     bodyDetail config req = some d ∨ headersDetail config req = some d) →
    d ∈ handleValidate config req := by
  intro h
  unfold handleValidate
  rcases h with h | h | h | h <;> simp [h]

/-- A successful association lookup means the key is among the keys. -/
theorem alookup_some_mem {α : Type} (k : String) (l : List (String × α)) (v : α)
    (h : alookup k l = some v) : k ∈ l.map Prod.fst := by
  induction l with
  | nil => exact absurd h (by simp [alookup])
  | cons p rest ih =>
    by_cases hk : p.1 = k
    · simp [hk]
    · simp only [alookup] at h
      rcases p with ⟨k', v'⟩
      simp only at hk
      rw [if_neg hk] at h
      simp [ih h]

/-- A body error entry makes the whole collected list nonempty. -/
theorem bodyDetail_ne_nil (config : HandleConfig) (req : EnhancedRequest)
    (d : ValidationErrorDetail) (h : bodyDetail config req = some d) :
    handleValidate config req ≠ [] :=
  List.ne_nil_of_mem (mem_handleValidate config req d (Or.inr (Or.inr (Or.inl h))))

/-- No declared property produces an error against the empty object. -/
theorem propertiesErrors_nil_fields (opts : AjvOptions)
    (props : List (String × PropSchema)) : propertiesErrors opts [] props = [] := by
  induction props with
  | nil => rfl
  | cons p rest ih => rcases p with ⟨n, ps⟩; simp [propertiesErrors, alookup, ih]

/-- Against the empty object, the errors are exactly the required-field
violations (with handle.ts's options, which strip silently). -/
theorem ajv_handleOptions_empty_obj (s : ObjectSchema) :
    (ajvValidate handleAjvOptions s (Json.obj [])).2 = requiredErrors [] s.required := by
  simp [ajvValidate, handleAjvOptions, propertiesErrors_nil_fields, additionalErrors]

/-- Every required name is reported as missing on the empty object. -/
theorem requiredErrors_nil_fields_ne_nil (names : List String) (h : names ≠ []) :
    requiredErrors [] names ≠ [] := by
  cases names with
  | nil => exact absurd rfl h
  | cons n rest => simp [requiredErrors, alookup]

/-- A schema whose fields are all optional accepts the empty object. -/
theorem sourceDetail_empty_obj_none (f : Field) (s : ObjectSchema)
    (h : s.required = []) : sourceDetail f s (Json.obj []) = none := by
  unfold sourceDetail
  rw [ajv_handleOptions_empty_obj, h]
  simp [requiredErrors]

/-- A schema with required fields rejects the empty object. -/
theorem sourceDetail_empty_obj_some (f : Field) (s : ObjectSchema)
    (h : s.required ≠ []) : ∃ d, sourceDetail f s (Json.obj []) = some d := by
  refine ⟨⟨f, formatErrors (requiredErrors [] s.required)⟩, ?_⟩
  unfold sourceDetail
  rw [ajv_handleOptions_empty_obj]
  rw [if_neg]
  simp [List.isEmpty_iff, requiredErrors_nil_fields_ne_nil s.required h]

/-- Field lookup on a JSON-object response body. -/
def bodyField (r : HttpResult) (k : String) : Option Json :=
  match r.body with
  | .obj fs => alookup k fs
  | _ => none

/-! ### Claim theorems -/

/-- C1 (counterexample): a handle() gate declaring a body schema and a
headers schema, both failing on a request carrying neither, collects its
details in the order body before headers — not the claimed params, query,
headers, body order. -/
theorem handle_details_order_counterexample :
    (handleValidate
        ⟨none, none, some (.single ⟨[], ["name"], true⟩), some ⟨[], ["x-api-key"], true⟩⟩
        ⟨none, none, none, none⟩).map (fun d => d.field) = [Field.body, Field.headers] ∧
    [Field.body, Field.headers] ≠ [Field.headers, Field.body] := by
  exact ⟨by decide, by decide⟩

/-- C1 (amended): for every gate built by handle() and every request, the
errors of the resulting 400 are collected into one list ordered params,
then query, then body, then headers — the order handle.ts checks the
sources — each failing source contributing at most one entry. -/
theorem handle_details_source_order :
    ∀ (config : HandleConfig) (req : EnhancedRequest),
      ((handleValidate config req).map (fun d => d.field)).Sublist
        [Field.params, Field.query, Field.body, Field.headers] := by
  intro config req
  have hp : ((paramsDetail config req).toList.map (fun d => d.field)).Sublist
      [Field.params] := by
    cases hd : paramsDetail config req with
    | none => simp
    | some d => simp [paramsDetail_field config req d hd]
  have hq : ((queryDetail config req).toList.map (fun d => d.field)).Sublist
      [Field.query] := by
    cases hd : queryDetail config req with
    | none => simp
    | some d => simp [queryDetail_field config req d hd]
  have hb : ((bodyDetail config req).toList.map (fun d => d.field)).Sublist
      [Field.body] := by
    cases hd : bodyDetail config req with
    | none => simp
    | some d => simp [bodyDetail_field config req d hd]
  have hh : ((headersDetail config req).toList.map (fun d => d.field)).Sublist
      [Field.headers] := by
    cases hd : headersDetail config req with
    | none => simp
    | some d => simp [headersDetail_field config req d hd]
  have := ((hp.append hq).append hb).append hh
  simpa [handleValidate] using this

/-- C6 (counterexample): a request failing validation through
createValidationMiddleware gets a 400 whose body is a flat errors array —
it has no error "Validation Failed" member and no details grouping. -/
theorem mw_validation_shape_counterexample :
    (createValidationMiddleware ⟨some ⟨[], ["id"], true⟩, none, none, none⟩
        ⟨Json.obj [], Json.obj [], Json.obj [], none⟩
        (fun _ => ⟨200, [], Json.null⟩)).statusCode = 400 ∧
    bodyField (createValidationMiddleware ⟨some ⟨[], ["id"], true⟩, none, none, none⟩
        ⟨Json.obj [], Json.obj [], Json.obj [], none⟩
        (fun _ => ⟨200, [], Json.null⟩)) "error" = none ∧
    (bodyField (createValidationMiddleware ⟨some ⟨[], ["id"], true⟩, none, none, none⟩
        ⟨Json.obj [], Json.obj [], Json.obj [], none⟩
        (fun _ => ⟨200, [], Json.null⟩)) "errors").isSome = true := by
  exact ⟨rfl, rfl, rfl⟩

/-- C6 (amended): every request failing validation through handle() gets a
Result of status 400 whose JSON body is the object with error "Validation
Failed" and the details grouped by source, each error carrying path,
message and keyword; the middleware instead answers 400 with a flat
body-errors array. -/
theorem handle_validation_failed_shape :
    ∀ (config : HandleConfig) (handler : EnhancedRequest → HttpResult)
      (req : EnhancedRequest),
      handleValidate config req ≠ [] →
      handle config handler req =
        ⟨400, [("Content-Type", "application/json")],
         Json.obj [("error", Json.str "Validation Failed"),
                   ("details", Json.arr ((handleValidate config req).map encodeDetail))]⟩ := by
  intro config handler req h
  unfold handle
  cases hd : handleValidate config req with
  | nil => exact absurd hd h
  | cons d ds => simp [badRequest, createJsonResult, validationFailedBody, hd]

/-- C6 witness: the shape theorem applied to a gate requiring a params
field on a request without params. -/
theorem handle_validation_failed_shape_witness :
    handleValidate ⟨some ⟨[], ["id"], true⟩, none, none, none⟩ ⟨none, none, none, none⟩ ≠ [] ∧
    handle ⟨some ⟨[], ["id"], true⟩, none, none, none⟩ (fun _ => ⟨200, [], Json.null⟩)
        ⟨none, none, none, none⟩ =
      ⟨400, [("Content-Type", "application/json")],
       Json.obj [("error", Json.str "Validation Failed"),
                 ("details", Json.arr ((handleValidate ⟨some ⟨[], ["id"], true⟩, none, none, none⟩
                    ⟨none, none, none, none⟩).map encodeDetail))]⟩ :=
  ⟨by decide,
   handle_validation_failed_shape ⟨some ⟨[], ["id"], true⟩, none, none, none⟩
     (fun _ => ⟨200, [], Json.null⟩) ⟨none, none, none, none⟩ (by decide)⟩

/-- C7: every declared source is validated even when an earlier one already
failed — each source's error entry is present in the collected list no
matter what the others produced — and the single 400 reports them all;
likewise for the middleware, whose validation is a total function. -/
theorem all_sources_reported :
    ∀ (config : HandleConfig) (handler : EnhancedRequest → HttpResult)
      (req : EnhancedRequest) (d : ValidationErrorDetail),
      (paramsDetail config req = some d → d ∈ handleValidate config req) ∧
      (queryDetail config req = some d → d ∈ handleValidate config req) ∧
      (bodyDetail config req = some d → d ∈ handleValidate config req) ∧
      (headersDetail config req = some d → d ∈ handleValidate config req) ∧
      (handleValidate config req ≠ [] → (handle config handler req).statusCode = 400) ∧
      ∀ (ms : MwSchema) (ctx : MwContext) (next' : MwContext → HttpResult) (e : MwError),
        (e ∈ mwSourceErrors "params" ms.params ctx.params → e ∈ mwValidate ms ctx) ∧
        (e ∈ mwSourceErrors "headers" ms.headers ctx.headers → e ∈ mwValidate ms ctx) ∧
        (e ∈ mwBodyErrors ms.body ctx.body → e ∈ mwValidate ms ctx) ∧
        (mwValidate ms ctx ≠ [] → (createValidationMiddleware ms ctx next').statusCode = 400) := by
  intro config handler req d
  refine ⟨fun h => mem_handleValidate config req d (Or.inl h),
          fun h => mem_handleValidate config req d (Or.inr (Or.inl h)),
          fun h => mem_handleValidate config req d (Or.inr (Or.inr (Or.inl h))),
          fun h => mem_handleValidate config req d (Or.inr (Or.inr (Or.inr h))),
          handle_status_of_ne_nil config handler req, ?_⟩
  intro ms ctx next' e
  refine ⟨fun h => ?_, fun h => ?_, fun h => ?_, fun h => ?_⟩
  · unfold mwValidate; simp [h]
  · unfold mwValidate; simp [h]
  · unfold mwValidate; simp [h]
  · unfold createValidationMiddleware
    cases hd : mwValidate ms ctx with
    | nil => exact absurd hd h
    | cons x xs => simp

/-- C7 witness: params and headers both fail on one request through
handle(), and through the middleware params and body both fail, each
reported together in one 400. -/
theorem all_sources_reported_witness :
    (paramsDetail ⟨some ⟨[], ["id"], true⟩, none, none, some ⟨[], ["k"], true⟩⟩
        ⟨none, none, none, none⟩ =
      some ⟨.params, [⟨"/", "must have required property 'id'", "required"⟩]⟩) ∧
    (⟨.params, [⟨"/", "must have required property 'id'", "required"⟩]⟩ : ValidationErrorDetail) ∈
      handleValidate ⟨some ⟨[], ["id"], true⟩, none, none, some ⟨[], ["k"], true⟩⟩
        ⟨none, none, none, none⟩ ∧
    (handle ⟨some ⟨[], ["id"], true⟩, none, none, some ⟨[], ["k"], true⟩⟩
        (fun _ => ⟨200, [], Json.null⟩) ⟨none, none, none, none⟩).statusCode = 400 ∧
    (⟨"params", "must have required property 'id'"⟩ : MwError) ∈
      mwValidate ⟨some ⟨[], ["id"], true⟩, none, none, some ⟨[], ["b"], true⟩⟩
        ⟨Json.obj [], Json.obj [], Json.obj [], none⟩ ∧
    (createValidationMiddleware ⟨some ⟨[], ["id"], true⟩, none, none, some ⟨[], ["b"], true⟩⟩
        ⟨Json.obj [], Json.obj [], Json.obj [], none⟩
        (fun _ => ⟨200, [], Json.null⟩)).statusCode = 400 := by
  have T := all_sources_reported ⟨some ⟨[], ["id"], true⟩, none, none, some ⟨[], ["k"], true⟩⟩
    (fun _ => ⟨200, [], Json.null⟩) ⟨none, none, none, none⟩
    ⟨.params, [⟨"/", "must have required property 'id'", "required"⟩]⟩
  have M := T.2.2.2.2.2 ⟨some ⟨[], ["id"], true⟩, none, none, some ⟨[], ["b"], true⟩⟩
    ⟨Json.obj [], Json.obj [], Json.obj [], none⟩ (fun _ => ⟨200, [], Json.null⟩)
    ⟨"params", "must have required property 'id'"⟩
  exact ⟨by decide, T.1 (by decide), T.2.2.2.2.1 (by decide),
         M.1 (by decide), M.2.2.2 (by decide)⟩

/-- C2: content-type dispatch — normalization lowercases and drops the
";"-suffix (so the charset parameter is stripped); with no usable
Content-Type header, or one matching no declared key, the body contributes
exactly one error naming the supported content types and no body
validation runs (the entry is a constant not involving the body), and the
response is a 400; with a matching key the corresponding sub-schema
validates the body. -/
theorem content_type_dispatch :
    ∀ (schemas : List (String × ObjectSchema)) (config : HandleConfig)
      (handler : EnhancedRequest → HttpResult) (req : EnhancedRequest)
      (raw : String) (s : ObjectSchema),
      config.body = some (.byContentType schemas) →
      (∀ k ∈ schemas.map Prod.fst, k ≠ "") →
      (normalizeContentType "application/json; charset=utf-8" = "application/json") ∧
      (getHeaderString req "content-type" = none →
        bodyDetail config req = some (contentTypeRequiredDetail schemas) ∧
        (contentTypeRequiredDetail schemas).errors.length = 1 ∧
        (handle config handler req).statusCode = 400) ∧
      (getHeaderString req "content-type" = some raw →
        alookup (normalizeContentType raw) schemas = none →
        (bodyDetail config req = some (contentTypeRequiredDetail schemas) ∨
         bodyDetail config req =
           some (unsupportedContentTypeDetail (normalizeContentType raw) schemas)) ∧
        (unsupportedContentTypeDetail (normalizeContentType raw) schemas).errors.length = 1 ∧
        (handle config handler req).statusCode = 400) ∧
      (getHeaderString req "content-type" = some raw →
        alookup (normalizeContentType raw) schemas = some s →
        bodyDetail config req = sourceDetail .body s (orEmptyObj req.body)) := by
  intro schemas config handler req raw s hbody hkeys
  refine ⟨by decide, fun hh => ?_, fun hh hn => ?_, fun hh hf => ?_⟩
  · have hb : bodyDetail config req = some (contentTypeRequiredDetail schemas) := by
      unfold bodyDetail
      rw [hbody]
      dsimp only
      rw [hh]
      rfl
    exact ⟨hb, rfl, handle_status_of_ne_nil config handler req
      (bodyDetail_ne_nil config req _ hb)⟩
  · by_cases he : normalizeContentType raw = ""
    · have hb : bodyDetail config req = some (contentTypeRequiredDetail schemas) := by
        unfold bodyDetail
        rw [hbody]
        dsimp only
        rw [hh]
        simp only [Option.map_some']
        rw [if_pos he]
      exact ⟨Or.inl hb, rfl, handle_status_of_ne_nil config handler req
        (bodyDetail_ne_nil config req _ hb)⟩
    · have hb : bodyDetail config req =
          some (unsupportedContentTypeDetail (normalizeContentType raw) schemas) := by
        unfold bodyDetail
        rw [hbody]
        dsimp only
        rw [hh]
        simp only [Option.map_some']
        rw [if_neg he, hn]
      exact ⟨Or.inr hb, rfl, handle_status_of_ne_nil config handler req
        (bodyDetail_ne_nil config req _ hb)⟩
  · have he : normalizeContentType raw ≠ "" :=
      hkeys (normalizeContentType raw) (alookup_some_mem _ schemas s hf)
    unfold bodyDetail
    rw [hbody]
    dsimp only
    rw [hh]
    simp only [Option.map_some']
    rw [if_neg he, hf]

/-- C2 witness: with a schema declared for application/json, the header
"application/json; charset=utf-8" selects it, and a header-less request
gets the single supported-types error and a 400. -/
theorem content_type_dispatch_witness :
    normalizeContentType "application/json; charset=utf-8" = "application/json" ∧
    bodyDetail ⟨none, none, some (.byContentType [("application/json", ⟨[], ["name"], true⟩)]), none⟩
        ⟨none, none, some (Json.obj []),
         some (Json.obj [("content-type", Json.str "application/json; charset=utf-8")])⟩ =
      sourceDetail .body ⟨[], ["name"], true⟩
        (orEmptyObj (some (Json.obj []))) ∧
    bodyDetail ⟨none, none, some (.byContentType [("application/json", ⟨[], ["name"], true⟩)]), none⟩
        ⟨none, none, none, none⟩ =
      some (contentTypeRequiredDetail [("application/json", ⟨[], ["name"], true⟩)]) ∧
    (handle ⟨none, none, some (.byContentType [("application/json", ⟨[], ["name"], true⟩)]), none⟩
        (fun _ => ⟨200, [], Json.null⟩) ⟨none, none, none, none⟩).statusCode = 400 := by
  have Tm := content_type_dispatch [("application/json", ⟨[], ["name"], true⟩)]
    ⟨none, none, some (.byContentType [("application/json", ⟨[], ["name"], true⟩)]), none⟩
    (fun _ => ⟨200, [], Json.null⟩)
    ⟨none, none, some (Json.obj []),
     some (Json.obj [("content-type", Json.str "application/json; charset=utf-8")])⟩
    "application/json; charset=utf-8" ⟨[], ["name"], true⟩ rfl (by decide)
  have Ta := content_type_dispatch [("application/json", ⟨[], ["name"], true⟩)]
    ⟨none, none, some (.byContentType [("application/json", ⟨[], ["name"], true⟩)]), none⟩
    (fun _ => ⟨200, [], Json.null⟩) ⟨none, none, none, none⟩
    "application/json; charset=utf-8" ⟨[], ["name"], true⟩ rfl (by decide)
  refine ⟨Tm.1, Tm.2.2.2 (by decide) rfl, (Ta.2.1 (by decide)).1,
          (Ta.2.1 (by decide)).2.2⟩

/-- A handle() configuration declaring one schema at the given source. -/
def configWithSource : Field → ObjectSchema → HandleConfig
  | .params, s => ⟨some s, none, none, none⟩
  | .query, s => ⟨none, some s, none, none⟩
  | .body, s => ⟨none, none, some (.single s), none⟩
  | .headers, s => ⟨none, none, none, some s⟩

/-- A request all of whose structured parts are absent. -/
def emptyRequest : EnhancedRequest := ⟨none, none, none, none⟩

/-- C10: a declared schema whose request part is absent validates the empty
object in its place — required fields make the gate answer 400, while an
all-optional schema lets the request through to the handler untouched. -/
theorem absent_part_validated_as_empty_object :
    ∀ (f : Field) (s : ObjectSchema) (handler : EnhancedRequest → HttpResult),
      (s.required ≠ [] →
        (handle (configWithSource f s) handler emptyRequest).statusCode = 400) ∧
      (s.required = [] →
        handle (configWithSource f s) handler emptyRequest = handler emptyRequest) := by
  intro f s handler
  constructor
  · intro hr
    obtain ⟨d, hd⟩ := sourceDetail_empty_obj_some (f := f) s hr
    apply handle_status_of_ne_nil
    apply List.ne_nil_of_mem (a := d)
    apply mem_handleValidate
    cases f with
    | params => exact Or.inl hd
    | query => exact Or.inr (Or.inl hd)
    | body => exact Or.inr (Or.inr (Or.inl hd))
    | headers => exact Or.inr (Or.inr (Or.inr hd))
  · intro hr
    have hnone := sourceDetail_empty_obj_none (f := f) s hr
    have hempty : handleValidate (configWithSource f s) emptyRequest = [] := by
      cases f <;>
        simp [handleValidate, paramsDetail, queryDetail, bodyDetail, headersDetail,
          configWithSource, emptyRequest, orEmptyObj, hnone]
    unfold handle
    rw [hempty]
    rfl

/-- C10 witness: a required params schema rejects the params-less request
with 400; an all-optional params schema passes it through. -/
theorem absent_part_validated_witness :
    ((⟨[], ["id"], true⟩ : ObjectSchema).required ≠ [] ∧
      (handle (configWithSource .params ⟨[], ["id"], true⟩)
        (fun _ => ⟨200, [], Json.null⟩) emptyRequest).statusCode = 400) ∧
    ((⟨[("id", ⟨.tString, none, none⟩)], [], true⟩ : ObjectSchema).required = [] ∧
      handle (configWithSource .params ⟨[("id", ⟨.tString, none, none⟩)], [], true⟩)
        (fun _ => ⟨200, [], Json.null⟩) emptyRequest =
      (fun _ => (⟨200, [], Json.null⟩ : HttpResult)) emptyRequest) :=
  ⟨⟨by decide,
    (absent_part_validated_as_empty_object .params ⟨[], ["id"], true⟩
      (fun _ => ⟨200, [], Json.null⟩)).1 (by decide)⟩,
   ⟨rfl,
    (absent_part_validated_as_empty_object .params ⟨[("id", ⟨.tString, none, none⟩)], [], true⟩
      (fun _ => ⟨200, [], Json.null⟩)).2 rfl⟩⟩

/-- C4 (counterexample): the middleware's AJV instance enables neither
useDefaults nor removeAdditional — a missing optional field with a
declared default stays missing (where handle's options fill it in), and
an undeclared property under additionalProperties false is reported and
kept instead of being stripped. -/
theorem validator_middleware_options_counterexample :
    (ajvValidate middlewareAjvOptions ⟨[("a", ⟨.tInteger, none, some (Json.num 5)⟩)], [], true⟩
        (Json.obj [])).1 = Json.obj [] ∧
    (ajvValidate handleAjvOptions ⟨[("a", ⟨.tInteger, none, some (Json.num 5)⟩)], [], true⟩
        (Json.obj [])).1 = Json.obj [("a", Json.num 5)] ∧
    (ajvValidate middlewareAjvOptions ⟨[], [], false⟩
        (Json.obj [("extra", Json.str "x")])).1 = Json.obj [("extra", Json.str "x")] ∧
    (ajvValidate middlewareAjvOptions ⟨[], [], false⟩
        (Json.obj [("extra", Json.str "x")])).2 ≠ [] := by
  refine ⟨rfl, rfl, rfl, ?_⟩
  decide

/-- C4 (amended): with the options handle.ts passes, validation coerces a
numeric string before checking the minimum bound on the coerced number,
fills a declared default for a missing optional field, reports every
required-field violation instead of stopping at the first, and silently
strips undeclared properties under additionalProperties false. -/
theorem validator_pipeline_handle_options :
    ∀ (name rawStr : String) (i m : Int) (t : ScalarType) (d : Json)
      (n1 n2 : String) (v : Json),
      (parseIntChars rawStr.data = some i →
        ajvValidate handleAjvOptions ⟨[(name, ⟨.tInteger, some m, none⟩)], [], true⟩
            (Json.obj [(name, Json.str rawStr)]) =
          (Json.obj [(name, Json.num i)],
           if i < m then [⟨"/" ++ name, "must be >= " ++ toString m, "minimum"⟩] else [])) ∧
      (ajvValidate handleAjvOptions ⟨[(name, ⟨t, none, some d⟩)], [], true⟩ (Json.obj []) =
        (Json.obj [(name, d)], [])) ∧
      ((ajvValidate handleAjvOptions ⟨[], [n1, n2], true⟩ (Json.obj [])).2 =
        [⟨"", "must have required property '" ++ n1 ++ "'", "required"⟩,
         ⟨"", "must have required property '" ++ n2 ++ "'", "required"⟩]) ∧
      (ajvValidate handleAjvOptions ⟨[], [], false⟩ (Json.obj [(name, v)]) =
        (Json.obj [], [])) := by
  intro name rawStr i m t d n1 n2 v
  refine ⟨fun hp => ?_, ?_, ?_, ?_⟩
  · by_cases him : i < m <;>
      simp [ajvValidate, handleAjvOptions, propertiesErrors, requiredErrors,
        additionalErrors, correctedFields, appliedDefaults, propValidate,
        coerceScalar, alookup, hp, him]
  · simp [ajvValidate, handleAjvOptions, propertiesErrors, requiredErrors,
      additionalErrors, correctedFields, appliedDefaults, alookup]
  · simp [ajvValidate, handleAjvOptions, propertiesErrors, requiredErrors, alookup,
      additionalErrors]
  · simp [ajvValidate, handleAjvOptions, propertiesErrors, requiredErrors,
      additionalErrors, correctedFields, appliedDefaults, alookup, isDeclared]

/-- C4 witness: the amended pipeline theorem at the string "0" against an
integer schema with minimum 1. -/
theorem validator_pipeline_witness :
    parseIntChars "0".data = some 0 ∧
    ajvValidate handleAjvOptions ⟨[("a", ⟨.tInteger, some 1, none⟩)], [], true⟩
        (Json.obj [("a", Json.str "0")]) =
      (Json.obj [("a", Json.num 0)],
       if (0 : Int) < 1 then [⟨"/a", "must be >= " ++ toString (1 : Int), "minimum"⟩] else []) :=
  ⟨by decide,
   (validator_pipeline_handle_options "a" "0" 0 1 .tString Json.null "x" "y" Json.null).1
     (by decide)⟩

/-- No pattern matches exactly when the scan over registration order finds
nothing. -/
theorem findMatchingRoute_eq_none_iff (patterns : List String) (pathname : String) :
    findMatchingRoute patterns pathname = none ↔
      ∀ p ∈ patterns, matchSegments (splitPath p) (splitPath pathname) = none := by
  induction patterns with
  | nil => simp [findMatchingRoute]
  | cons p rest ih =>
    simp only [findMatchingRoute]
    cases hm : matchSegments (splitPath p) (splitPath pathname) with
    | some params => simp [hm]
    | none => simp [hm, ih]

/-- C5: the dispatcher answers 404 when no registered pattern matches the
path, 405 with an Allow header joining the pattern's registered methods
when the pattern matches but the method has no handler, and converts any
failure raised by the handler into the generic 500 whose body carries
nothing of the underlying cause. -/
theorem dispatcher_error_mapping :
    ∀ (routes : Routes) (pathname method : String),
      ((∀ p ∈ routes.map (·.1), matchSegments (splitPath p) (splitPath pathname) = none) →
        requestHandler routes pathname method = ⟨404, [], Json.null⟩) ∧
      (∀ (pattern : String) (params : List (String × String)),
        findMatchingRoute (routes.map (·.1)) pathname = some (pattern, params) →
        alookup method ((alookup pattern routes).getD []) = none →
        requestHandler routes pathname method =
          ⟨405, [("Allow", joinWith ", " (((alookup pattern routes).getD []).map (·.1)))],
           Json.null⟩) ∧
      (∀ (pattern : String) (params : List (String × String))
         (h : RouteHandler) (e : String),
        findMatchingRoute (routes.map (·.1)) pathname = some (pattern, params) →
        alookup method ((alookup pattern routes).getD []) = some h →
        h params = Except.error e →
        requestHandler routes pathname method = ⟨500, [], Json.null⟩) := by
  intro routes pathname method
  refine ⟨fun hnone => ?_, fun pattern params hfind hm => ?_,
          fun pattern params h e hfind hm he => ?_⟩
  · unfold requestHandler
    rw [(findMatchingRoute_eq_none_iff _ _).mpr hnone]
    rfl
  · unfold requestHandler
    rw [hfind]
    dsimp only
    rw [hm]
    rfl
  · unfold requestHandler
    rw [hfind]
    dsimp only
    rw [hm]
    dsimp only
    rw [he]
    rfl

/-- C5 witness: one route for GET /users/:id — an unmatched path gets 404,
POST to a matched path gets 405 with Allow "get", and a throwing handler
produces the bare 500. -/
theorem dispatcher_error_mapping_witness :
    requestHandler [("/users/:id", [("get", fun _ => Except.error "boom")])] "/" "get" =
      ⟨404, [], Json.null⟩ ∧
    requestHandler [("/users/:id", [("get", fun _ => Except.error "boom")])] "/users/42" "post" =
      ⟨405, [("Allow", "get")], Json.null⟩ ∧
    requestHandler [("/users/:id", [("get", fun _ => Except.error "boom")])] "/users/42" "get" =
      ⟨500, [], Json.null⟩ := by
  have T1 := dispatcher_error_mapping
    [("/users/:id", [("get", fun _ => Except.error "boom")])] "/" "get"
  have T2 := dispatcher_error_mapping
    [("/users/:id", [("get", fun _ => Except.error "boom")])] "/users/42" "post"
  have T3 := dispatcher_error_mapping
    [("/users/:id", [("get", fun _ => Except.error "boom")])] "/users/42" "get"
  exact ⟨T1.1 (by decide),
         T2.2.1 "/users/:id" [("id", "42")] rfl rfl,
         T3.2.2 "/users/:id" [("id", "42")] (fun _ => Except.error "boom") "boom" rfl rfl rfl⟩

/-- Over any trace, the cleanup callback runs once per close() call, plus
once more when the first non-write event is a consumer cancellation. -/
theorem sseRun_cleanupRuns (t : List SSEEvent) : ∀ (st : SSEState),
    (sseRun st t).cleanupRuns =
      st.cleanupRuns + countClose t +
        (if st.closed || st.cancelled then 0
         else if firstEffectiveCancel t then 1 else 0) := by
  induction t with
  | nil => intro st; simp [sseRun, countClose, firstEffectiveCancel]
  | cons e t ih =>
    intro st
    cases e with
    | write =>
      simp only [sseRun, sseStep, countClose, firstEffectiveCancel]
      rw [ih st]
    | close =>
      simp only [sseRun, sseStep, countClose, firstEffectiveCancel]
      rw [ih ⟨true, st.cancelled, st.cleanupRuns + 1⟩]
      simp
      omega
    | cancel =>
      by_cases hc : st.closed || st.cancelled
      · simp only [sseRun, sseStep, countClose, firstEffectiveCancel, if_pos hc]
        rw [ih st]
        simp [hc]
      · simp only [sseRun, sseStep, countClose, firstEffectiveCancel, if_neg hc]
        rw [ih ⟨st.closed, true, st.cleanupRuns + 1⟩]
        simp only [Bool.or_true, if_true]
        omega

/-- In a close-free trace containing a cancellation, the first non-write
event is that cancellation. -/
theorem firstEffectiveCancel_of_no_close (t : List SSEEvent)
    (h0 : countClose t = 0) (hmem : SSEEvent.cancel ∈ t) :
    firstEffectiveCancel t = true := by
  induction t with
  | nil => simp at hmem
  | cons e t ih =>
    cases e with
    | write =>
      have hmem' : SSEEvent.cancel ∈ t := by
        rcases List.mem_cons.mp hmem with h | h
        · exact absurd h (by decide)
        · exact h
      simp only [firstEffectiveCancel]
      exact ih (by simpa [countClose] using h0) hmem'
    | close => simp [countClose] at h0
    | cancel => rfl

/-- C8 (counterexample): in the interleaving where the consumer cancels and
the producer then calls close(), the cleanup callback runs twice, not
exactly once. -/
theorem sse_cleanup_twice_counterexample :
    (sseRun sseInit [SSEEvent.cancel, SSEEvent.close]).cleanupRuns = 2 ∧
    (2 : Nat) ≠ 1 := ⟨by decide, by decide⟩

/-- C8 (amended): the cleanup callback runs exactly once in every trace in
which either close() is called exactly once and no cancellation precedes
it, or close() is never called and the consumer cancels; a close() after a
cancellation (or a second close()) runs it again. -/
theorem sse_cleanup_exactly_once :
    ∀ (t : List SSEEvent),
      (countClose t = 1 → firstEffectiveCancel t = false →
        (sseRun sseInit t).cleanupRuns = 1) ∧
      (countClose t = 0 → SSEEvent.cancel ∈ t →
        (sseRun sseInit t).cleanupRuns = 1) := by
  intro t
  constructor
  · intro h1 h2
    rw [sseRun_cleanupRuns t sseInit]
    simp [sseInit, h1, h2]
  · intro h0 hmem
    rw [sseRun_cleanupRuns t sseInit]
    simp [sseInit, h0, firstEffectiveCancel_of_no_close t h0 hmem]

/-- C8 witness: a write followed by one close runs the cleanup once, and a
write followed by a cancellation (even repeated) runs it once. -/
theorem sse_cleanup_exactly_once_witness :
    (countClose [SSEEvent.write, SSEEvent.close] = 1 ∧
      firstEffectiveCancel [SSEEvent.write, SSEEvent.close] = false ∧
      (sseRun sseInit [SSEEvent.write, SSEEvent.close]).cleanupRuns = 1) ∧
    (countClose [SSEEvent.write, SSEEvent.cancel, SSEEvent.cancel] = 0 ∧
      SSEEvent.cancel ∈ [SSEEvent.write, SSEEvent.cancel, SSEEvent.cancel] ∧
      (sseRun sseInit [SSEEvent.write, SSEEvent.cancel, SSEEvent.cancel]).cleanupRuns = 1) :=
  ⟨⟨by decide, by decide,
    (sse_cleanup_exactly_once [SSEEvent.write, SSEEvent.close]).1 (by decide) (by decide)⟩,
   ⟨by decide, by decide,
    (sse_cleanup_exactly_once [SSEEvent.write, SSEEvent.cancel, SSEEvent.cancel]).2
      (by decide) (by decide)⟩⟩

end Bxn
